import Mathlib

/-!
Verification of the parrot static file server (src/parrot).

The development shallowly embeds the three core components:
- the path model and static resolver (src/parrot/static.py, handle_static_request),
- the response builder (_serve_mml and _serve_file in src/parrot/static.py,
  guess_mime_type in src/parrot/utils.py),
- the MML conversion adapter (src/parrot/mml_adapter.py), with Python
  exceptions modelled by an Except monad and the try/except blocks of the
  source translated into explicit catch combinators.

Filesystem paths are lists of components; the filesystem itself is a finite
list of directory paths and file paths. External behaviour (the loaded
converter module, subprocess runs, file reads, mime guessing, hashing,
time formatting) is passed in as explicit function-valued parameters, so
every definition is executable on concrete inputs.
-/

namespace Parrot

/-! ## Path model

A canonical absolute path is a list of components. `normJoin` models
`pathlib.Path.resolve` on a joined path (symlinks are not modelled): it
drops empty and `.` segments and lets `..` pop the last component, staying
at the filesystem root when there is nothing to pop.
-/

/-- Python `str.split("/")`, used when a relative URL string is joined onto
a `pathlib` path. -/
def splitSlashAux : List Char → List Char → List String
  | [], cur => [String.mk cur.reverse]
  | c :: rest, cur =>
    if c = '/' then String.mk cur.reverse :: splitSlashAux rest []
    else splitSlashAux rest (c :: cur)

def splitSlash (s : String) : List String :=
  splitSlashAux s.toList []

/-- Python `str.startswith`: character-level prefix test. -/
def strStartsWith (s pre : String) : Bool :=
  List.isPrefixOf pre.toList s.toList

/-- Python `str.strip()`: drop leading and trailing whitespace. -/
def pyStrip (s : String) : String :=
  String.mk (((s.toList.dropWhile Char.isWhitespace).reverse.dropWhile
    Char.isWhitespace).reverse)

def normSeg (acc : List String) (s : String) : List String :=
  if s = "" || s = "." then acc
  else if s = ".." then acc.dropLast
  else acc ++ [s]

def normJoin (segs : List String) : List String :=
  segs.foldl normSeg []

/-- String rendering of an absolute path, as `str(Path)` prints it. -/
def pathStr (p : List String) : String :=
  "/" ++ String.intercalate "/" p

/-- Index of the last dot in a character list, if any. -/
def lastDotAux : List Char → Nat → Option Nat → Option Nat
  | [], _, acc => acc
  | c :: rest, i, acc => lastDotAux rest (i + 1) (if c = '.' then some i else acc)

/-- `pathlib.PurePath.suffix` on a file name: the extension from the last
dot, provided that dot is neither the first nor the last character. -/
def nameSuffix (n : String) : String :=
  match lastDotAux n.toList 0 none with
  | none => ""
  | some k =>
    if 0 < k && k < n.toList.length - 1 then String.mk (n.toList.drop k) else ""

/-- `pathlib.PurePath.with_suffix` on a file name: strip the old extension
(if any) and append the new one. -/
def nameWithSuffix (n s : String) : String :=
  String.mk (n.toList.take (n.toList.length - (nameSuffix n).toList.length)) ++ s

def pathSuffix (p : List String) : String :=
  nameSuffix (p.getLast?.getD "")

def pathWithSuffix (p : List String) (s : String) : List String :=
  p.dropLast ++ [nameWithSuffix (p.getLast?.getD "") s]

/-! ## Filesystem and static resolver (src/parrot/static.py) -/

structure FS where
  dirs : List (List String)
  files : List (List String)
deriving DecidableEq

def FS.isDir (fs : FS) (p : List String) : Bool :=
  fs.dirs.contains p

def FS.isFile (fs : FS) (p : List String) : Bool :=
  fs.files.contains p

/-- `Path.exists()`: true for directories and regular files. -/
def FS.fexists (fs : FS) (p : List String) : Bool :=
  fs.isDir p || fs.isFile p

/-- Immediate children of a directory, with a trailing slash marker for
subdirectories (the directory-listing branch of handle_static_request). -/
def FS.childrenOf (fs : FS) (p : List String) : List String :=
  (fs.dirs.filterMap fun q =>
    if q.dropLast = p ∧ q ≠ [] then some ((q.getLast?.getD "") ++ "/") else none)
  ++ (fs.files.filterMap fun q =>
    if q.dropLast = p ∧ q ≠ [] then some (q.getLast?.getD "") else none)

/-- Outcome of resolution: which concrete artifact answers the request, or
an error status. `serveMml p` means the request routes to MML conversion of
`p`; `serveStatic p` means the raw bytes of `p` are served. -/
inductive ResolveResult where
  | forbidden
  | notFound
  | listing (entries : List String)
  | serveMml (p : List String)
  | serveStatic (p : List String)
deriving DecidableEq

inductive DirStep where
  | resp (r : ResolveResult)
  | cont (j : List String)
deriving DecidableEq

/-- Directory handling of handle_static_request (static.py lines 44-59):
an existing directory is redirected to its `index.mml`, else `index.html`,
else answered with a listing or 404. -/
def dirPhase (fs : FS) (j : List String) (enableListing : Bool) : DirStep :=
  if fs.isDir j then
    if fs.fexists (j ++ ["index.mml"]) then .cont (j ++ ["index.mml"])
    else if fs.fexists (j ++ ["index.html"]) then .cont (j ++ ["index.html"])
    else if enableListing then .resp (.listing (fs.childrenOf j))
    else .resp .notFound
  else .cont j

/-- Last-resort sibling probe (static.py lines 75-81): try the `.mml`
variant of the candidate, then the `.html` variant. -/
def lastResort (fs : FS) (j : List String) : ResolveResult :=
  if fs.fexists (pathWithSuffix j ".mml") then .serveMml (pathWithSuffix j ".mml")
  else if fs.fexists (pathWithSuffix j ".html") then .serveStatic (pathWithSuffix j ".html")
  else .notFound

/-- static.py lines 69-83: serve `.mml` candidates via conversion, serve
existing regular files raw, otherwise fall to the sibling probe. -/
def afterBare (fs : FS) (j : List String) : ResolveResult :=
  if pathSuffix j = ".mml" ∧ fs.fexists j then .serveMml j
  else if fs.fexists j ∧ fs.isFile j then .serveStatic j
  else lastResort fs j

/-- static.py lines 61-83: an extensionless candidate probes its `.mml`
sibling first (immediate conversion), then its `.html` sibling. -/
def filePhase (fs : FS) (j : List String) : ResolveResult :=
  if pathSuffix j = "" then
    if fs.fexists (pathWithSuffix j ".mml") then .serveMml (pathWithSuffix j ".mml")
    else if fs.fexists (pathWithSuffix j ".html") then afterBare fs (pathWithSuffix j ".html")
    else afterBare fs j
  else afterBare fs j

/-- handle_static_request (static.py lines 24-83) as a pure resolution
function. The root is canonicalized, the URL path is joined and
canonicalized, and the traversal check compares rendered path strings with
`String.startsWith`, exactly as the source compares
`str(joined).startswith(str(root))`. -/
def handleStatic (fs : FS) (rootSegs : List String) (relUrl : String)
    (enableListing : Bool) : ResolveResult :=
  let root := normJoin rootSegs
  let joined := normJoin (root ++ splitSlash relUrl)
  if strStartsWith (pathStr joined) (pathStr root) then
    match dirPhase fs joined enableListing with
    | .resp r => r
    | .cont j2 => filePhase fs j2
  else .forbidden

/-! ## Response builder (_serve_mml and _serve_file in src/parrot/static.py,
guess_mime_type in src/parrot/utils.py)

The content hash (`compute_etag_bytes`, a sha1 hexdigest), the timestamp
formatter (`strftime`) and the platform mime table (`mimetypes.guess_type`)
are passed in as function parameters; bodies are modelled as strings. -/

structure HttpResponse where
  status : Nat
  headers : List (String × String)
  body : String
deriving DecidableEq

/-- guess_mime_type (utils.py lines 9-11): `mime or "application/octet-stream"`
where `mime` is the platform guess; both a missing guess and an empty-string
guess are falsy in Python and fall back. -/
def guessMime (mEnv : String → Option String) (p : String) : String :=
  match mEnv p with
  | some m => if m ≠ "" then m else "application/octet-stream"
  | none => "application/octet-stream"

/-- Header set built by _serve_mml (static.py lines 91-96). -/
def mmlHeaders (etag lm : String) : List (String × String) :=
  [("Content-Type", "text/html; charset=utf-8"),
   ("ETag", etag),
   ("Cache-Control", "no-cache"),
   ("Last-Modified", lm)]

/-- _serve_mml (static.py lines 85-101), parameterized by the conversion
outcome `html`, the content hash `etagOf`, the time formatter `fmtTime`,
the source file modification time `mtime` and the current time `now`.
A missing conversion result is a 500; an If-None-Match header that is
truthy and equal to the etag is a 304 with the same headers and no body. -/
def serveMml (etagOf : String → String) (fmtTime : Nat → String)
    (html : Option String) (mtime : Option Nat) (now : Nat)
    (ifNoneMatch : Option String) : HttpResponse :=
  match html with
  | none => ⟨500, [], "MML conversion failed"⟩
  | some h =>
    let etag := etagOf h
    let hdrs := mmlHeaders etag (fmtTime (mtime.getD now))
    match ifNoneMatch with
    | some inm => if inm ≠ "" ∧ inm = etag then ⟨304, hdrs, ""⟩ else ⟨200, hdrs, h⟩
    | none => ⟨200, hdrs, h⟩

/-- _serve_file (static.py lines 103-114): mime from the name, etag from the
bytes, short-lived public caching; `request.headers.get(...) == etag` is an
equality against an optional header. -/
def serveFile (etagOf : String → String) (mEnv : String → Option String)
    (p : String) (bytes : String) (ifNoneMatch : Option String) : HttpResponse :=
  let mime := guessMime mEnv p
  let etag := etagOf bytes
  let hdrs := [("Content-Type", mime), ("ETag", etag),
               ("Cache-Control", "public, max-age=60")]
  if ifNoneMatch = some etag then ⟨304, hdrs, ""⟩ else ⟨200, hdrs, bytes⟩

/-! ## Conversion adapter (src/parrot/mml_adapter.py)

Python exceptions are modelled with `Except PyErr`; each try/except of the
source becomes an explicit catch combinator, and a raise that the source
does not catch would surface as an `Except.error` of the whole adapter.
The externally supplied converter module is a table of optional callables;
calling one returns either a value, a TypeError (signature mismatch) or
some other exception, and a two-argument call can additionally write
content into the temporary output file it was handed. -/

inductive PyErr where
  | typeErr
  | otherErr
deriving DecidableEq

abbrev Py (α : Type) := Except PyErr α

/-- Value returned by a Python call: a string, or anything that fails the
`isinstance(ret, str)` test (None included). -/
inductive PyRet where
  | str (s : String)
  | other
deriving DecidableEq

inductive CallRes where
  | typeError
  | raises
  | ret (v : PyRet)
deriving DecidableEq

/-- Outcome of a two-argument call: its result, plus the content the callee
wrote into the temporary output file (if any) before returning or raising. -/
structure CallOut where
  res : CallRes
  write : Option String
deriving DecidableEq

def CallRes.toPy : CallRes → Py PyRet
  | .typeError => .error .typeErr
  | .raises => .error .otherErr
  | .ret v => .ok v

/-- A callable attribute of the converter module, with its behaviour under
two-argument calls `fn(inputPath, outPath)` and one-argument calls `fn(x)`.
A one-argument call never learns the temporary file name, so it writes
nothing. -/
structure PyFun where
  call2 : String → String → CallOut
  call1 : String → CallRes

structure ConvModule where
  attrs : String → Option PyFun

inductive ProcOutcome where
  | raises
  | completes (rc : Int) (stdout : String) (stderr : String)
deriving DecidableEq

/-- External behaviour the adapter interacts with: the (possibly failed)
result of executing the loader, the filesystem read of the MML source, and
the subprocess runner keyed by the flag variant. -/
structure ConvEnv where
  module : Option ConvModule
  readFile : String → Option String
  run : String → List String → ProcOutcome

/-- Process-wide observable state: how many times _load_converter_module has
executed, the temp-name supply, and the set of live temporary files. -/
structure World where
  loads : Nat
  nextTmp : Nat
  liveTmps : List Nat
deriving DecidableEq

def tmpName (tid : Nat) : String :=
  "/tmp/parrot-" ++ toString tid ++ ".html"

/-- `except TypeError:` — recover only from a TypeError. -/
def catchTypeErr (mx : Py α) (h : Py α) : Py α :=
  match mx with
  | .error .typeErr => h
  | r => r

/-- `except Exception:` — recover from any exception with a default. -/
def catchAll (mx : Py α) (d : α) : Py α :=
  match mx with
  | .error _ => .ok d
  | r => r

/-- Truthiness test for the temp-file content read back at mml_adapter.py
lines 101-105: `if data and data.strip()`. -/
def tmpRead (d : String) : Option String :=
  if d ≠ "" ∧ pyStrip d ≠ "" then some d else none

/-- Body of one named-candidate attempt (mml_adapter.py lines 86-108), for
a created temporary file at `tmpPath`: try `fn(mml, tmp)`, retry TypeError
with `fn(mml)`, a second TypeError leaves `ret = None`; a non-empty string
return wins, else the temp file content is read back. Exceptions other
than TypeError escape to the caller. -/
def attemptBody (f : PyFun) (mml tmpPath : String) : Py (Option String) :=
  let c2 := f.call2 mml tmpPath
  let tmpData := (c2.write).getD ""
  let retM : Py PyRet :=
    catchTypeErr c2.res.toPy (catchTypeErr (f.call1 mml).toPy (.ok .other))
  match retM with
  | .error e => .error e
  | .ok (.str s) => if pyStrip s ≠ "" then .ok (some s) else .ok (tmpRead tmpData)
  | .ok .other => .ok (tmpRead tmpData)

/-- Fixed preference order of named candidates (mml_adapter.py line 72). -/
def fileFnCandidates : List String :=
  ["compile_mml_to_html", "convert_file", "convert_mml_to_html", "convert"]

/-- The candidate loop (mml_adapter.py lines 73-120). For each callable
candidate a fresh temporary file is created, the attempt body runs, and the
`finally:` clause erases the temporary file on every outcome — success,
failure, and exception (the surrounding `except Exception: continue` then
moves to the next candidate). -/
def tryCandidatesE (m : ConvModule) (mml : String) :
    List String → World → Py (Option String × World)
  | [], w => .ok (none, w)
  | nm :: rest, w =>
    match m.attrs nm with
    | none => tryCandidatesE m mml rest w
    | some f =>
      let tid := w.nextTmp
      let w1 : World := ⟨w.loads, w.nextTmp + 1, tid :: w.liveTmps⟩
      let w2 : World := ⟨w1.loads, w1.nextTmp, w1.liveTmps.erase tid⟩
      match attemptBody f mml (tmpName tid) with
      | .ok (some s) => .ok (some s, w2)
      | .ok none => tryCandidatesE m mml rest w2
      | .error _ => tryCandidatesE m mml rest w2

/-- Content-based fallback (mml_adapter.py lines 122-133): read the MML
source text and call `convert_mml_to_html` on it, guarded by
`except Exception`. -/
def tryContentE (m : ConvModule) (env : ConvEnv) (mml : String) : Py (Option String) :=
  match m.attrs "convert_mml_to_html" with
  | none => .ok none
  | some f =>
    catchAll
      (match env.readFile mml with
       | none => .error .otherErr
       | some content =>
         match (f.call1 content).toPy with
         | .error e => .error e
         | .ok (.str s) => if pyStrip s ≠ "" then .ok (some s) else .ok none
         | .ok .other => .ok none)
      none

/-- Flag variants tried by _run_subprocess_and_capture (mml_adapter.py
lines 36-40), in source order. -/
def subAttempts : List (List String) :=
  [["--stdout"], ["-"], []]

/-- _run_subprocess_and_capture (mml_adapter.py lines 31-51): the first
attempt that completes with exit status zero and truthy, non-whitespace
stdout wins; an attempt that raises (timeout included) or fails moves on,
its stderr only printed. -/
def runSub (env : ConvEnv) (mml : String) : List (List String) → Option String
  | [] => none
  | flags :: rest =>
    match env.run mml flags with
    | .raises => runSub env mml rest
    | .completes rc out _ =>
      if rc == 0 && out != "" && pyStrip out != "" then some out
      else runSub env mml rest

/-- Specification-level reading of the subprocess strategy: the stdout of
the first flag variant that exits zero with non-whitespace stdout. -/
def firstStdout (env : ConvEnv) (mml : String) (l : List (List String)) : Option String :=
  l.findSome? fun flags =>
    match env.run mml flags with
    | .raises => none
    | .completes rc out _ => if rc == 0 && pyStrip out != "" then some out else none

/-- Failure of a single subprocess flag variant. -/
def subFails (env : ConvEnv) (mml : String) (flags : List String) : Prop :=
  match env.run mml flags with
  | .raises => True
  | .completes rc out _ => rc ≠ 0 ∨ pyStrip out = ""

/-- convert_mml_file_to_html_string (mml_adapter.py lines 53-136). Line 67
executes _load_converter_module unconditionally on every call, counted in
`World.loads`; a missing module short-circuits to the subprocess strategy,
otherwise the named candidates, then the content-based fallback, then the
subprocess strategy run in order. -/
def convertE (env : ConvEnv) (mml : String) (w : World) : Py (Option String × World) :=
  let w1 : World := ⟨w.loads + 1, w.nextTmp, w.liveTmps⟩
  match env.module with
  | none => .ok (runSub env mml subAttempts, w1)
  | some m =>
    match tryCandidatesE m mml fileFnCandidates w1 with
    | .error e => .error e
    | .ok (some s, w2) => .ok (some s, w2)
    | .ok (none, w2) =>
      match tryContentE m env mml with
      | .error e => .error e
      | .ok (some s) => .ok (some s, w2)
      | .ok none => .ok (runSub env mml subAttempts, w2)

/-- A sequence of `n` conversion requests threaded through the process
state (each request runs the adapter once, as _serve_mml does). -/
def callsIter (env : ConvEnv) (mml : String) : Nat → World → World
  | 0, w => w
  | n + 1, w =>
    match convertE env mml w with
    | .ok (_, w2) => callsIter env mml n w2
    | .error _ => w

/-! ## Concrete fixtures used by witnesses and counterexamples -/

/-- A tree where the root is `/a/b` and a sibling directory `/a/bc` shares
the string prefix `/a/b`: file `/a/bc/x` lies outside the root. -/
def fsEvil : FS :=
  ⟨[["a"], ["a", "b"], ["a", "bc"]], [["a", "bc", "x"]]⟩

/-- A tree with root `/`: `foo.mml` and `foo.html` side by side, a
directory `d` holding both index variants, and siblings `b.mml` next to a
candidate `b.txt` that does not exist. -/
def fs3 : FS :=
  ⟨[[], ["d"]], [["foo.mml"], ["foo.html"], ["d", "index.mml"], ["d", "index.html"], ["b.mml"]]⟩

/-- Adapter environment whose loader failed and whose subprocess attempts
all exit nonzero. -/
def env0 : ConvEnv :=
  ⟨none, fun _ => none, fun _ _ => .completes 1 "" "boom"⟩

def w0 : World := ⟨0, 0, []⟩

/-- A converter function that only accepts MML text: the two-argument call
is a signature mismatch, and a one-argument call raises unless it receives
the known file content. -/
def f1 : PyFun :=
  ⟨fun _ _ => ⟨.typeError, none⟩,
   fun a => if a = "CONTENT" then .ret (.str "<html>ok</html>") else .raises⟩

/-- A module exposing only the content-based entry point. -/
def m1 : ConvModule :=
  ⟨fun nm => if nm = "convert_mml_to_html" then some f1 else none⟩

/-- Environment around `m1` whose filesystem holds `doc.mml`. -/
def env1 : ConvEnv :=
  ⟨some m1, fun p => if p = "doc.mml" then some "CONTENT" else none,
   fun _ _ => .raises⟩

/-- A concrete stand-in for the content hash. -/
def eFc (s : String) : String := "E" ++ s

/-- A concrete stand-in for the timestamp formatter. -/
def fFc (n : Nat) : String := toString n

/-- A concrete stand-in for the platform mime table. -/
def mEnv0 (p : String) : Option String :=
  if p = "a.png" then some "image/png" else none

/-! ## Helper lemmas -/

theorem catchAll_ok (mx : Py α) (d : α) : ∃ r, catchAll mx d = .ok r := by
  cases mx with
  | ok a => exact ⟨a, rfl⟩
  | error e => exact ⟨d, rfl⟩

/-- The candidate loop never lets an exception escape, never leaks a
temporary file, and never runs the loader. -/
theorem tryCandidatesE_ok (m : ConvModule) (mml : String) (l : List String) :
    ∀ w : World, ∃ r w2, tryCandidatesE m mml l w = .ok (r, w2)
      ∧ w2.liveTmps = w.liveTmps ∧ w2.loads = w.loads := by
  induction l with
  | nil => exact fun w => ⟨none, w, rfl, rfl, rfl⟩
  | cons nm rest ih =>
    intro w
    simp only [tryCandidatesE]
    cases hA : m.attrs nm with
    | none => exact ih w
    | some f =>
      simp only [List.erase_cons_head]
      cases hB : attemptBody f mml (tmpName w.nextTmp) with
      | error e =>
        obtain ⟨r, w2, h, hl, hld⟩ := ih ⟨w.loads, w.nextTmp + 1, w.liveTmps⟩
        exact ⟨r, w2, h, hl, hld⟩
      | ok o =>
        cases o with
        | none =>
          obtain ⟨r, w2, h, hl, hld⟩ := ih ⟨w.loads, w.nextTmp + 1, w.liveTmps⟩
          exact ⟨r, w2, h, hl, hld⟩
        | some s => exact ⟨some s, _, rfl, rfl, rfl⟩

/-- The content-based fallback never lets an exception escape. -/
theorem tryContentE_ok (m : ConvModule) (env : ConvEnv) (mml : String) :
    ∃ r, tryContentE m env mml = .ok r := by
  unfold tryContentE
  cases m.attrs "convert_mml_to_html" with
  | none => exact ⟨none, rfl⟩
  | some f => exact catchAll_ok _ _

/-- The whole adapter never lets an exception escape, leaks no temporary
file, and runs the loader exactly once per call. -/
theorem convertE_ok (env : ConvEnv) (mml : String) (w : World) :
    ∃ r w2, convertE env mml w = .ok (r, w2)
      ∧ w2.liveTmps = w.liveTmps ∧ w2.loads = w.loads + 1 := by
  unfold convertE
  cases hm : env.module with
  | none => exact ⟨runSub env mml subAttempts, _, rfl, rfl, rfl⟩
  | some m =>
    obtain ⟨r, w2, h, hl, hld⟩ :=
      tryCandidatesE_ok m mml fileFnCandidates ⟨w.loads + 1, w.nextTmp, w.liveTmps⟩
    simp only [h]
    cases r with
    | some s => exact ⟨some s, w2, rfl, hl, hld⟩
    | none =>
      obtain ⟨r3, h3⟩ := tryContentE_ok m env mml
      simp only [h3]
      cases r3 with
      | some s => exact ⟨some s, w2, rfl, hl, hld⟩
      | none => exact ⟨runSub env mml subAttempts, w2, rfl, hl, hld⟩

theorem pyStrip_empty : pyStrip "" = "" := rfl

/-- The implemented subprocess loop agrees with the first-success reading. -/
theorem runSub_eq_firstStdout (env : ConvEnv) (mml : String) :
    ∀ l : List (List String), runSub env mml l = firstStdout env mml l := by
  intro l
  induction l with
  | nil => rfl
  | cons flags rest ih =>
    simp only [runSub, firstStdout, List.findSome?]
    cases hr : env.run mml flags with
    | raises => simpa [firstStdout] using ih
    | completes rc out err =>
      by_cases hout : out = ""
      · subst hout
        simpa [pyStrip_empty, firstStdout] using ih
      · simp only [ne_eq, hout, not_false_eq_true, bne_iff_ne]
        by_cases hrc : rc == 0 <;> by_cases hst : pyStrip out != "" <;>
          simp_all [firstStdout]

/-- A single flag variant yields nothing exactly when it fails. -/
theorem sub_one_none (env : ConvEnv) (mml : String) (flags : List String) :
    (match env.run mml flags with
     | .raises => none
     | .completes rc out _ =>
       if rc == 0 && pyStrip out != "" then some out else none) = (none : Option String)
    ↔ subFails env mml flags := by
  unfold subFails
  cases hr : env.run mml flags with
  | raises => simp
  | completes rc out err =>
    by_cases hrc : rc = 0 <;> by_cases hst : pyStrip out = "" <;> simp_all

/-! ## Claim theorems -/

/-- C1: the spec requires every URL path whose canonical join resolves
outside the root to be answered 403 and never served; the code checks
`str(joined).startswith(str(root))`, a string-prefix test that a sibling
directory sharing the root's name as a string prefix defeats. With root
`/a/b`, the request `../bc/x` resolves to `/a/bc/x`, which is not a
descendant of the root yet passes the check and is served as a static
file. -/
theorem c1_traversal_prefix_bug :
    handleStatic fsEvil ["a", "b"] "../bc/x" false = .serveStatic ["a", "bc", "x"]
    ∧ List.isPrefixOf ["a", "b"] ["a", "bc", "x"] = false
    ∧ strStartsWith (pathStr (normJoin (["a", "b"] ++ splitSlash "../bc/x")))
        (pathStr (normJoin ["a", "b"])) = true := by
  refine ⟨by decide, by decide, by decide⟩

/-- C2, counterexample: the claim says the load routine runs only on the
first of any sequence of conversions. The code calls
_load_converter_module on every invocation (mml_adapter.py line 67, with
no cache), so after two conversions the loader has run twice, not once. -/
theorem c2_load_each_call_cex :
    (callsIter env0 "doc.mml" 2 w0).loads = 2
    ∧ (callsIter env0 "doc.mml" 2 w0).loads ≠ 1 := by
  refine ⟨by decide, by decide⟩

/-- C2, amended: the external conversion unit is loaded on every call to
the adapter, never cached: after any sequence of n conversions the load
routine has executed exactly n times. -/
theorem c2_load_runs_every_call :
    ∀ (env : ConvEnv) (mml : String) (n : Nat) (w : World),
      (callsIter env mml n w).loads = w.loads + n := by
  intro env mml n
  induction n with
  | zero => intro w; rfl
  | succ k ih =>
    intro w
    obtain ⟨r, w2, h, _, hld⟩ := convertE_ok env mml w
    simp only [callsIter, h]
    rw [ih w2, hld]
    omega

/-- C4: whatever the external conversion unit does (entry points that
raise, return non-strings, return empty output, or are absent), the
adapter never lets an exception escape to its caller, and the caller turns
a missing conversion result into a 500 response. -/
theorem c4_adapter_never_raises :
    (∀ (env : ConvEnv) (mml : String) (w : World), ∃ r, convertE env mml w = .ok r)
    ∧ (∀ (eF : String → String) (fF : Nat → String) (mt : Option Nat) (now : Nat)
        (inm : Option String), (serveMml eF fF none mt now inm).status = 500) := by
  constructor
  · intro env mml w
    obtain ⟨r, w2, h, _⟩ := convertE_ok env mml w
    exact ⟨(r, w2), h⟩
  · intro eF fF mt now inm
    rfl

/-- C6: each named-candidate attempt scopes its temporary output file: on
every exit path (string return, temp-file content, signature mismatch,
raised exception) the file is removed before the loop moves on or returns,
so the set of live temporary files is unchanged by the whole loop. -/
theorem c6_tmp_scoped_cleanup :
    ∀ (m : ConvModule) (mml : String) (l : List String) (w : World),
      ∃ r w2, tryCandidatesE m mml l w = .ok (r, w2) ∧ w2.liveTmps = w.liveTmps := by
  intro m mml l w
  obtain ⟨r, w2, h, hl, _⟩ := tryCandidatesE_ok m mml l w
  exact ⟨r, w2, h, hl⟩

/-- C7: the subprocess strategy tries the fixed flag variants in order and
returns the stdout of the first attempt that exits zero with non-blank
stdout; an attempt that raises (timeout included), exits nonzero or prints
only whitespace moves to the next variant, and the result is none exactly
when every variant fails. -/
theorem c7_subprocess_first_success :
    subAttempts = [["--stdout"], ["-"], []]
    ∧ (∀ (env : ConvEnv) (mml : String),
        runSub env mml subAttempts = firstStdout env mml subAttempts)
    ∧ (∀ (env : ConvEnv) (mml : String),
        runSub env mml subAttempts = none ↔
          ∀ flags ∈ subAttempts, subFails env mml flags) := by
  refine ⟨rfl, fun env mml => runSub_eq_firstStdout env mml subAttempts, fun env mml => ?_⟩
  rw [runSub_eq_firstStdout env mml subAttempts]
  unfold firstStdout
  rw [List.findSome?_eq_none_iff]
  constructor
  · intro h flags hf
    exact (sub_one_none env mml flags).mp (h flags hf)
  · intro h flags hf
    exact (sub_one_none env mml flags).mpr (h flags hf)

/-- C7 witness: in the fixture environment whose subprocess attempts all
exit nonzero, the strategy returns none. -/
theorem c7_subprocess_first_success_witness :
    runSub env0 "doc.mml" subAttempts = none :=
  (c7_subprocess_first_success.2.2 env0 "doc.mml").mpr
    (by intro flags hf; simp [subFails, env0])

/-- C9: a converter module exposing only the content-based entry point
(no candidate usable by the named-candidate strategy: every path-based
attempt on it fails) still succeeds via strategy 3: the adapter reads the
MML file text, passes it to convert_mml_to_html, and returns its non-blank
string result. -/
theorem c9_content_fallback (env : ConvEnv) (m : ConvModule) (f : PyFun)
    (mml content s : String) (w : World)
    (hm : env.module = some m)
    (h1 : m.attrs "compile_mml_to_html" = none)
    (h2 : m.attrs "convert_file" = none)
    (h3 : m.attrs "convert" = none)
    (h4 : m.attrs "convert_mml_to_html" = some f)
    (hfail : ∀ tp, attemptBody f mml tp = .ok none ∨ ∃ e, attemptBody f mml tp = .error e)
    (hread : env.readFile mml = some content)
    (hcall : f.call1 content = CallRes.ret (PyRet.str s))
    (hs : pyStrip s ≠ "") :
    convertE env mml w = .ok (some s, ⟨w.loads + 1, w.nextTmp + 1, w.liveTmps⟩) := by
  have hcand : tryCandidatesE m mml fileFnCandidates ⟨w.loads + 1, w.nextTmp, w.liveTmps⟩
      = .ok (none, ⟨w.loads + 1, w.nextTmp + 1, w.liveTmps⟩) := by
    simp only [fileFnCandidates, tryCandidatesE, h1, h2, h3, h4, List.erase_cons_head]
    rcases hfail (tmpName w.nextTmp) with hb | ⟨e, hb⟩ <;>
      simp [hb, tryCandidatesE]
  have hcont : tryContentE m env mml = .ok (some s) := by
    simp [tryContentE, h4, hread, hcall, CallRes.toPy, catchAll, hs]
  unfold convertE
  rw [hm]
  simp only [hcand, hcont]

/-- C9 witness: the fixture module `m1` exposes only a content-based
converter; the adapter converts `doc.mml` through strategy 3. -/
theorem c9_content_fallback_witness :
    convertE env1 "doc.mml" w0 = .ok (some "<html>ok</html>", ⟨1, 1, []⟩) := by
  have hfail : ∀ tp, attemptBody f1 "doc.mml" tp = .ok none
      ∨ ∃ e, attemptBody f1 "doc.mml" tp = .error e := by
    intro tp
    right
    exact ⟨PyErr.otherErr, rfl⟩
  exact c9_content_fallback env1 m1 f1 "doc.mml" "CONTENT" "<html>ok</html>" w0
    rfl rfl rfl rfl rfl hfail rfl rfl (by decide)

/-- C5: a request whose If-None-Match header equals the computed etag of
the resolved body gets a 304 with empty body and the same header set as
the corresponding 200 response, for converted documents (whenever the etag
is a truthy string, as a sha1 hexdigest always is) and for static files. -/
theorem c5_conditional_304 :
    ∀ (eF : String → String) (fF : Nat → String) (h : String) (mt : Option Nat)
      (now : Nat) (mEnv : String → Option String) (p bytes : String),
      (eF h ≠ "" →
        serveMml eF fF (some h) mt now (some (eF h)) =
          ⟨304, (serveMml eF fF (some h) mt now none).headers, ""⟩)
      ∧ serveFile eF mEnv p bytes (some (eF bytes)) =
          ⟨304, (serveFile eF mEnv p bytes none).headers, ""⟩ := by
  intro eF fF h mt now mEnv p bytes
  constructor
  · intro hne
    simp [serveMml, hne]
  · simp [serveFile]

/-- C5 witness: a concrete conditional GET replay for both target kinds. -/
theorem c5_conditional_304_witness :
    eFc "<p>" ≠ ""
    ∧ serveMml eFc fFc (some "<p>") (some 5) 9 (some (eFc "<p>")) =
        ⟨304, (serveMml eFc fFc (some "<p>") (some 5) 9 none).headers, ""⟩
    ∧ serveFile eFc mEnv0 "a.png" "BYTES" (some (eFc "BYTES")) =
        ⟨304, (serveFile eFc mEnv0 "a.png" "BYTES" none).headers, ""⟩ :=
  ⟨by decide,
   (c5_conditional_304 eFc fFc "<p>" (some 5) 9 mEnv0 "a.png" "BYTES").1 (by decide),
   (c5_conditional_304 eFc fFc "<p>" (some 5) 9 mEnv0 "a.png" "BYTES").2⟩

/-- C8: a 200 response for a converted document carries Content-Type
text/html with utf-8 charset, Cache-Control no-cache and a Last-Modified
derived from the source modification time with fallback to the current
time; a 200 response for a static file carries the mime type guessed from
the name and Cache-Control public, max-age=60. -/
theorem c8_response_headers :
    ∀ (eF : String → String) (fF : Nat → String) (h : String) (mt : Option Nat)
      (now : Nat) (mEnv : String → Option String) (p bytes : String),
      (serveMml eF fF (some h) mt now none).status = 200
      ∧ (serveMml eF fF (some h) mt now none).headers.lookup "Content-Type"
          = some "text/html; charset=utf-8"
      ∧ (serveMml eF fF (some h) mt now none).headers.lookup "Cache-Control"
          = some "no-cache"
      ∧ (serveMml eF fF (some h) mt now none).headers.lookup "Last-Modified"
          = some (fF (mt.getD now))
      ∧ (serveFile eF mEnv p bytes none).status = 200
      ∧ (serveFile eF mEnv p bytes none).headers.lookup "Content-Type"
          = some (guessMime mEnv p)
      ∧ (serveFile eF mEnv p bytes none).headers.lookup "Cache-Control"
          = some "public, max-age=60" :=
  fun _ _ _ _ _ _ _ _ => ⟨rfl, rfl, rfl, rfl, rfl, rfl, rfl⟩

/-- C10: guess_mime_type is total and never yields an empty content type:
the platform guess is returned when present and non-empty, and the fixed
fallback otherwise, so every static-file response carries a non-empty
Content-Type header. -/
theorem c10_mime_total :
    ∀ (mEnv : String → Option String) (p bytes : String) (eF : String → String)
      (inm : Option String),
      guessMime mEnv p ≠ ""
      ∧ (mEnv p = none → guessMime mEnv p = "application/octet-stream")
      ∧ (∀ m, mEnv p = some m → m ≠ "" → guessMime mEnv p = m)
      ∧ (serveFile eF mEnv p bytes inm).headers.lookup "Content-Type"
          = some (guessMime mEnv p) := by
  intro mEnv p bytes eF inm
  refine ⟨?_, ?_, ?_, ?_⟩
  · unfold guessMime
    cases mEnv p with
    | none => decide
    | some m =>
      by_cases hm : m = "" <;> simp [hm]
  · intro h
    simp [guessMime, h]
  · intro m hm hne
    simp [guessMime, hm, hne]
  · simp only [serveFile]
    split <;> rfl

/-- C10 witness: the fixture mime table at a known and at an unknown
extension. -/
theorem c10_mime_total_witness :
    guessMime mEnv0 "a.txt" = "application/octet-stream"
    ∧ guessMime mEnv0 "a.png" = "image/png"
    ∧ guessMime mEnv0 "a.png" ≠ "" :=
  ⟨(c10_mime_total mEnv0 "a.txt" "" eFc none).2.1 rfl,
   (c10_mime_total mEnv0 "a.png" "" eFc none).2.2.1 "image/png" rfl (by decide),
   (c10_mime_total mEnv0 "a.png" "" eFc none).1⟩

/-- C3: `.mml` beats `.html` at every decision point of resolution. For an
extensionless request whose candidate is not a directory, an existing
`.mml` sibling is served via conversion regardless of an `.html` sibling;
a directory with `index.mml` continues with it ahead of `index.html` and
then serves it via conversion; and the last-resort probe serves an
existing `.mml` sibling ahead of any `.html` sibling. -/
theorem c3_mml_over_html :
    (∀ (fs : FS) (rootSegs : List String) (rel : String) (b : Bool),
      fs.isDir (normJoin (normJoin rootSegs ++ splitSlash rel)) = false →
      strStartsWith (pathStr (normJoin (normJoin rootSegs ++ splitSlash rel)))
        (pathStr (normJoin rootSegs)) = true →
      pathSuffix (normJoin (normJoin rootSegs ++ splitSlash rel)) = "" →
      fs.fexists (pathWithSuffix (normJoin (normJoin rootSegs ++ splitSlash rel)) ".mml") = true →
      handleStatic fs rootSegs rel b =
        .serveMml (pathWithSuffix (normJoin (normJoin rootSegs ++ splitSlash rel)) ".mml"))
    ∧ (∀ (fs : FS) (j : List String) (b : Bool),
      fs.isDir j = true → fs.fexists (j ++ ["index.mml"]) = true →
      dirPhase fs j b = .cont (j ++ ["index.mml"])
      ∧ filePhase fs (j ++ ["index.mml"]) = .serveMml (j ++ ["index.mml"]))
    ∧ (∀ (fs : FS) (j : List String),
      fs.fexists (pathWithSuffix j ".mml") = true →
      lastResort fs j = .serveMml (pathWithSuffix j ".mml")) := by
  refine ⟨?_, ?_, ?_⟩
  · intro fs rootSegs rel b hdir hstart hsuf hmml
    simp only [handleStatic, hstart, if_true, dirPhase, hdir, Bool.false_eq_true,
      if_false, filePhase, hsuf, hmml]
  · intro fs j b hd hidx
    have hps : pathSuffix (j ++ ["index.mml"]) = ".mml" := by
      simp only [pathSuffix, List.getLast?_concat, Option.getD_some]
      decide
    constructor
    · simp [dirPhase, hd, hidx]
    · simp [filePhase, hps, afterBare, hidx]
  · intro fs j h
    simp [lastResort, h]

/-- C3 witness: with both foo.mml and foo.html under the root, the request
foo resolves to conversion of foo.mml; a directory holding both index
variants continues with index.mml and serves it; the last-resort probe on
b.txt picks the b.mml sibling. -/
theorem c3_mml_over_html_witness :
    handleStatic fs3 [] "foo" false = .serveMml ["foo.mml"]
    ∧ dirPhase fs3 ["d"] false = .cont ["d", "index.mml"]
    ∧ filePhase fs3 ["d", "index.mml"] = .serveMml ["d", "index.mml"]
    ∧ lastResort fs3 ["b.txt"] = .serveMml ["b.mml"] :=
  ⟨c3_mml_over_html.1 fs3 [] "foo" false (by decide) (by decide) (by decide) (by decide),
   (c3_mml_over_html.2.1 fs3 ["d"] false (by decide) (by decide)).1,
   (c3_mml_over_html.2.1 fs3 ["d"] false (by decide) (by decide)).2,
   c3_mml_over_html.2.2 fs3 ["b.txt"] (by decide)⟩

end Parrot
